import Mathlib

/-!
Verification of the random-Fourier-feature kernel mapping and the notebook
glue code of the tensorflow-machine-learning repository.

The repository consists of two tutorial notebooks.  The mathematically
substantive component — the random Fourier feature mapper
(`tf.contrib.kernel_methods.RandomFourierFeatureMapper`) — is framework code
invoked by the notebooks, not implemented in them, so its model below follows
the specification's contract (construction validation, sampling, `Apply`).
The notebook-local code (`get_input_fn` and the Census feature columns) is
embedded directly from the notebook sources.
-/

namespace TFML

/-- A random source handed to the mapper's constructor.  `gauss i j` is the
(i, j)-th draw from a standard (mean 0, standard deviation 1) Gaussian
stream; `unif k` is the k-th draw from a uniform stream on `[0, 1)`.
A fixed seed determines a fixed `RandomSource`. -/
structure RandomSource where
  gauss : ℕ → ℕ → ℝ
  unif : ℕ → ℝ

/-- The random Fourier feature mapper: input dimension `d`, output dimension
`D`, bandwidth `stddev` (σ), a `D × d` projection matrix `omega` (Ω) and a
length-`D` offset vector `offset` (b). -/
structure RandomFourierFeatureMapper where
  input_dim : ℕ
  output_dim : ℕ
  stddev : ℝ
  omega : List (List ℝ)
  offset : List ℝ

/-- Configuration errors raised at construction time. -/
inductive ConfigError where
  | invalidParams
  deriving DecidableEq

/-- Errors raised by `Apply`; the dimension-mismatch precondition violation
is the only one. -/
inductive ApplyError where
  | dimensionMismatch
  deriving DecidableEq

/-- Modelled from the spec: the constructor of
`tf.contrib.kernel_methods.RandomFourierFeatureMapper` is TensorFlow
framework code not present in this repository.  Per the spec's contract it
validates that `d`, `D` and σ are positive (otherwise a configuration
error), samples the `D × d` projection matrix with entries that are
independent zero-mean Gaussian draws of standard deviation `1/σ` (a standard
Gaussian draw scaled by `1/σ`), and samples the length-`D` offset vector
with entries uniform on `[0, 2π)` (a uniform `[0, 1)` draw scaled by `2π`). -/
noncomputable def construct (d D : ℕ) (σ : ℝ) (src : RandomSource) :
    Except ConfigError RandomFourierFeatureMapper :=
  if 0 < d ∧ 0 < D ∧ 0 < σ then
    Except.ok
      { input_dim := d
        output_dim := D
        stddev := σ
        omega := List.ofFn fun i : Fin D => List.ofFn fun j : Fin d =>
          src.gauss i j / σ
        offset := List.ofFn fun k : Fin D => 2 * Real.pi * src.unif k }
  else
    Except.error ConfigError.invalidParams

/-- Dot product of two coordinate lists. -/
def dot (u v : List ℝ) : ℝ :=
  (List.zipWith (· * ·) u v).sum

/-- The mapping formula of the notebook (part_000, "Technical details"):
`RFFM(x) = cos(Ω·x + b)` with the cosine applied element-wise. -/
noncomputable def RFFM (omega : List (List ℝ)) (offset : List ℝ) (x : List ℝ) :
    List ℝ :=
  List.zipWith (fun row bk => Real.cos (dot row x + bk)) omega offset

/-- Modelled from the spec: `Apply` of the framework mapper checks the input
length against the configured input dimension (dimension mismatch is its only
error condition) and otherwise returns `cos(Ω·x + b)` element-wise. -/
noncomputable def apply (m : RandomFourierFeatureMapper) (x : List ℝ) :
    Except ApplyError (List ℝ) :=
  if x.length = m.input_dim then
    Except.ok (RFFM m.omega m.offset x)
  else
    Except.error ApplyError.dimensionMismatch

/-- Modelled from the spec: an `Apply` call viewed as a state transformer on
the mapper, returning the call's result together with the mapper state after
the call.  Per the spec the operation is pure: the mapping parameters are
immutable, so the post-call state is the mapper itself. -/
noncomputable def applyState (m : RandomFourierFeatureMapper) (x : List ℝ) :
    Except ApplyError (List ℝ) × RandomFourierFeatureMapper :=
  (apply m x, m)

/-- The all-zero random source, used to instantiate witnesses. -/
def zeroSource : RandomSource :=
  { gauss := fun _ _ => 0, unif := fun _ => 0 }

/-- The mapper that `construct 1 2 1 zeroSource` produces. -/
noncomputable def mW : RandomFourierFeatureMapper :=
  { input_dim := 1, output_dim := 2, stddev := 1
    omega := [[0], [0]], offset := [0, 0] }

theorem construct_mW : construct 1 2 1 zeroSource = Except.ok mW := by
  rw [construct, if_pos (by norm_num)]
  simp [mW, zeroSource, List.ofFn_succ]

theorem construct_ok_elim {d D : ℕ} {σ : ℝ} {src : RandomSource}
    {m : RandomFourierFeatureMapper}
    (hm : construct d D σ src = Except.ok m) :
    (0 < d ∧ 0 < D ∧ 0 < σ) ∧
      m = { input_dim := d, output_dim := D, stddev := σ
            omega := List.ofFn fun i : Fin D => List.ofFn fun j : Fin d =>
              src.gauss i j / σ
            offset := List.ofFn fun k : Fin D => 2 * Real.pi * src.unif k } := by
  by_cases h : 0 < d ∧ 0 < D ∧ 0 < σ
  · rw [construct, if_pos h] at hm
    exact ⟨h, (Except.ok.injEq _ _ ▸ hm).symm⟩
  · rw [construct, if_neg h] at hm
    exact absurd hm (by simp)

theorem construct_shape {d D : ℕ} {σ : ℝ} {src : RandomSource}
    {m : RandomFourierFeatureMapper}
    (hm : construct d D σ src = Except.ok m) :
    m.input_dim = d ∧ m.output_dim = D ∧ m.omega.length = D ∧
      (∀ row ∈ m.omega, row.length = d) ∧ m.offset.length = D := by
  obtain ⟨-, rfl⟩ := construct_ok_elim hm
  refine ⟨rfl, rfl, by simp, ?_, by simp⟩
  intro row hrow
  dsimp only at hrow
  obtain ⟨i, rfl⟩ := Set.mem_range.mp ((List.mem_ofFn _ _).mp hrow)
  simp

theorem RFFM_length (Ω : List (List ℝ)) (b x : List ℝ) :
    (RFFM Ω b x).length = min Ω.length b.length := by
  simp [RFFM]

theorem RFFM_getD (Ω : List (List ℝ)) (b x : List ℝ) (i : ℕ)
    (h1 : i < Ω.length) (h2 : i < b.length) :
    (RFFM Ω b x).getD i 0 =
      Real.cos (dot (Ω.getD i []) x + b.getD i 0) := by
  rw [List.getD_eq_getElem _ _ (by simp [RFFM]; omega),
      List.getD_eq_getElem _ _ h1, List.getD_eq_getElem _ _ h2]
  simp [RFFM]

theorem RFFM_mem_cos {Ω : List (List ℝ)} {b x : List ℝ} {v : ℝ}
    (hv : v ∈ RFFM Ω b x) : ∃ t, v = Real.cos t := by
  rw [List.mem_iff_getElem] at hv
  obtain ⟨i, hi, rfl⟩ := hv
  have h1 : i < Ω.length := by rw [RFFM_length] at hi; omega
  have h2 : i < b.length := by rw [RFFM_length] at hi; omega
  refine ⟨dot (Ω.get ⟨i, h1⟩) x + b.get ⟨i, h2⟩, ?_⟩
  simp [RFFM]

/-- C1: for every mapper constructed with input dimension `d`, projection
matrix Ω and offset vector b, and every input vector `x` of length exactly
`d`, `Apply x` returns the vector `cos(Ω·x + b)` computed element-wise, a
numeric vector of length `D`. -/
theorem apply_computes_cos_projection (d D : ℕ) (σ : ℝ) (src : RandomSource)
    (m : RandomFourierFeatureMapper) (x : List ℝ)
    (hm : construct d D σ src = Except.ok m) (hx : x.length = d) :
    apply m x = Except.ok (RFFM m.omega m.offset x) ∧
      (RFFM m.omega m.offset x).length = D ∧
      ∀ i, i < D →
        (RFFM m.omega m.offset x).getD i 0 =
          Real.cos (dot (m.omega.getD i []) x + m.offset.getD i 0) := by
  obtain ⟨hin, hout, hΩ, hrows, hb⟩ := construct_shape hm
  refine ⟨?_, ?_, ?_⟩
  · rw [apply, if_pos (by omega)]
  · rw [RFFM_length, hΩ, hb, min_self]
  · intro i hi
    exact RFFM_getD _ _ _ _ (by omega) (by omega)

theorem apply_computes_cos_projection_witness :
    construct 1 2 1 zeroSource = Except.ok mW ∧ [(0 : ℝ)].length = 1 ∧
      (apply mW [0] = Except.ok (RFFM mW.omega mW.offset [0]) ∧
        (RFFM mW.omega mW.offset [0]).length = 2 ∧
        ∀ i, i < 2 →
          (RFFM mW.omega mW.offset [0]).getD i 0 =
            Real.cos (dot (mW.omega.getD i []) [0] + mW.offset.getD i 0)) :=
  ⟨construct_mW, rfl,
    apply_computes_cos_projection 1 2 1 zeroSource mW [0] construct_mW rfl⟩

/-- C2: `Apply` fails with the dimension-mismatch error iff the input length
differs from the configured input dimension; in particular an input of length
`d + 1` is rejected, never truncated or padded; and the dimension mismatch is
the only error condition of `Apply`. -/
theorem apply_dim_mismatch (m : RandomFourierFeatureMapper) (x : List ℝ) :
    (apply m x = Except.error ApplyError.dimensionMismatch ↔
      x.length ≠ m.input_dim) ∧
    (x.length = m.input_dim + 1 →
      apply m x = Except.error ApplyError.dimensionMismatch) ∧
    (∀ e : ApplyError, e = ApplyError.dimensionMismatch) := by
  refine ⟨?_, ?_, fun e => by cases e; rfl⟩
  · by_cases h : x.length = m.input_dim
    · rw [apply, if_pos h]; simp [h]
    · rw [apply, if_neg h]; simp [h]
  · intro h
    rw [apply, if_neg (by omega)]

theorem apply_dim_mismatch_witness :
    apply mW [0, 0] = Except.error ApplyError.dimensionMismatch :=
  (apply_dim_mismatch mW [0, 0]).2.1 rfl

/-- C3: for every input of the correct length, `Apply` returns a vector of
length exactly `D` with every entry in the closed interval `[-1, 1]`. -/
theorem apply_output_length_range (d D : ℕ) (σ : ℝ) (src : RandomSource)
    (m : RandomFourierFeatureMapper) (x : List ℝ)
    (hm : construct d D σ src = Except.ok m) (hx : x.length = d) :
    ∃ y, apply m x = Except.ok y ∧ y.length = D ∧
      ∀ v ∈ y, -1 ≤ v ∧ v ≤ 1 := by
  obtain ⟨hin, hout, hΩ, hrows, hb⟩ := construct_shape hm
  refine ⟨RFFM m.omega m.offset x, ?_, ?_, ?_⟩
  · rw [apply, if_pos (by omega)]
  · rw [RFFM_length, hΩ, hb, min_self]
  · intro v hv
    obtain ⟨t, rfl⟩ := RFFM_mem_cos hv
    exact ⟨Real.neg_one_le_cos t, Real.cos_le_one t⟩

theorem apply_output_length_range_witness :
    construct 1 2 1 zeroSource = Except.ok mW ∧ [(0 : ℝ)].length = 1 ∧
      ∃ y, apply mW [0] = Except.ok y ∧ y.length = 2 ∧
        ∀ v ∈ y, -1 ≤ v ∧ v ≤ 1 :=
  ⟨construct_mW, rfl,
    apply_output_length_range 1 2 1 zeroSource mW [0] construct_mW rfl⟩

/-- C4: two `Apply` calls on the same valid input return identical outputs,
`Apply` has no observable side effect on the mapper state, and the projection
matrix and offset vector are unchanged by every `Apply` invocation. -/
theorem apply_pure_immutable (m : RandomFourierFeatureMapper) (x : List ℝ)
    (_hx : x.length = m.input_dim) :
    (applyState m x).1 = (applyState ((applyState m x).2) x).1 ∧
      (applyState m x).2 = m ∧
      ((applyState m x).2).omega = m.omega ∧
      ((applyState m x).2).offset = m.offset :=
  ⟨rfl, rfl, rfl, rfl⟩

theorem apply_pure_immutable_witness :
    [(0 : ℝ)].length = mW.input_dim ∧
      ((applyState mW [0]).1 = (applyState ((applyState mW [0]).2) [0]).1 ∧
        (applyState mW [0]).2 = mW ∧
        ((applyState mW [0]).2).omega = mW.omega ∧
        ((applyState mW [0]).2).offset = mW.offset) :=
  ⟨rfl, apply_pure_immutable mW [0] rfl⟩

/-- C5: two mappers constructed with identical parameters `(d, D, σ)` from the
random source determined by the same fixed seed have bit-identical projection
matrices and offset vectors, and identical `Apply` outputs on every input. -/
theorem construct_deterministic (sourceOfSeed : ℕ → RandomSource) (seed : ℕ)
    (d D : ℕ) (σ : ℝ) (m₁ m₂ : RandomFourierFeatureMapper)
    (h₁ : construct d D σ (sourceOfSeed seed) = Except.ok m₁)
    (h₂ : construct d D σ (sourceOfSeed seed) = Except.ok m₂) :
    m₁.omega = m₂.omega ∧ m₁.offset = m₂.offset ∧
      ∀ x, apply m₁ x = apply m₂ x := by
  have h : m₁ = m₂ := by
    rw [h₁] at h₂
    exact Except.ok.inj h₂
  subst h
  exact ⟨rfl, rfl, fun _ => rfl⟩

theorem construct_deterministic_witness :
    construct 1 2 1 ((fun _ => zeroSource) 0) = Except.ok mW ∧
      (mW.omega = mW.omega ∧ mW.offset = mW.offset ∧
        ∀ x, apply mW x = apply mW x) :=
  ⟨construct_mW,
    construct_deterministic (fun _ => zeroSource) 0 1 2 1 mW mW
      construct_mW construct_mW⟩

/-- C6: construction with non-positive `d`, non-positive `D` (including
`D = 0`) or non-positive σ fails with a configuration error, and a mapper is
produced exactly when all three parameters are positive. -/
theorem construct_invalid_params (d D : ℕ) (σ : ℝ) (src : RandomSource) :
    (construct d D σ src = Except.error ConfigError.invalidParams ↔
      ¬(0 < d ∧ 0 < D ∧ 0 < σ)) ∧
    ∀ m, construct d D σ src = Except.ok m → 0 < d ∧ 0 < D ∧ 0 < σ := by
  constructor
  · by_cases h : 0 < d ∧ 0 < D ∧ 0 < σ
    · rw [construct, if_pos h]; simp [h]
    · rw [construct, if_neg h]; simp [h]
  · intro m hm
    exact (construct_ok_elim hm).1

theorem construct_invalid_params_witness :
    construct 1 0 1 zeroSource = Except.error ConfigError.invalidParams :=
  (construct_invalid_params 1 0 1 zeroSource).1.mpr (by norm_num)

/-- C7: every constructed projection-matrix entry is a standard Gaussian draw
scaled by `1/σ` (a zero-mean Gaussian draw of standard deviation `1/σ`), every
offset entry is `2π` times a uniform `[0, 1)` draw and therefore lies in
`[0, 2π)`, and the parameters are sampled once at construction and never
regenerated: `Apply` leaves them unchanged. -/
theorem construct_sampling (d D : ℕ) (σ : ℝ) (src : RandomSource)
    (m : RandomFourierFeatureMapper)
    (hm : construct d D σ src = Except.ok m) :
    (∀ i j, i < D → j < d →
      (m.omega.getD i []).getD j 0 = src.gauss i j / σ) ∧
    (∀ k, k < D → m.offset.getD k 0 = 2 * Real.pi * src.unif k) ∧
    (∀ k, k < D → 0 ≤ src.unif k → src.unif k < 1 →
      0 ≤ m.offset.getD k 0 ∧ m.offset.getD k 0 < 2 * Real.pi) ∧
    (∀ x, (applyState m x).2.omega = m.omega ∧
      (applyState m x).2.offset = m.offset) := by
  obtain ⟨hpos, rfl⟩ := construct_ok_elim hm
  refine ⟨?_, ?_, ?_, fun _ => ⟨rfl, rfl⟩⟩
  · intro i j hi hj
    have h1 : (List.ofFn fun a : Fin D => List.ofFn fun b : Fin d =>
        src.gauss a b / σ).getD i [] =
        List.ofFn fun b : Fin d => src.gauss i b / σ := by
      rw [List.getD_eq_getElem _ _ (by simpa using hi)]
      simp
    show ((List.ofFn fun a : Fin D => List.ofFn fun b : Fin d =>
        src.gauss a b / σ).getD i []).getD j 0 = src.gauss i j / σ
    rw [h1, List.getD_eq_getElem _ _ (by simpa using hj)]
    simp
  · intro k hk
    show (List.ofFn fun a : Fin D =>
        2 * Real.pi * src.unif a).getD k 0 = 2 * Real.pi * src.unif k
    rw [List.getD_eq_getElem _ _ (by simpa using hk)]
    simp
  · intro k hk hu0 hu1
    show 0 ≤ (List.ofFn fun a : Fin D => 2 * Real.pi * src.unif a).getD k 0 ∧
      (List.ofFn fun a : Fin D => 2 * Real.pi * src.unif a).getD k 0 <
        2 * Real.pi
    rw [List.getD_eq_getElem _ _ (by simpa using hk)]
    simp only [List.getElem_ofFn]
    constructor
    · exact mul_nonneg (by positivity) hu0
    · calc 2 * Real.pi * src.unif ↑(⟨k, by simpa using hk⟩ : Fin D) <
            2 * Real.pi * 1 :=
          mul_lt_mul_of_pos_left (by simpa using hu1) Real.two_pi_pos
        _ = 2 * Real.pi := mul_one _

theorem construct_sampling_witness :
    construct 1 2 1 zeroSource = Except.ok mW ∧
      ((∀ i j, i < 2 → j < 1 →
        (mW.omega.getD i []).getD j 0 = zeroSource.gauss i j / 1) ∧
      (∀ k, k < 2 → mW.offset.getD k 0 = 2 * Real.pi * zeroSource.unif k) ∧
      (∀ k, k < 2 → 0 ≤ zeroSource.unif k → zeroSource.unif k < 1 →
        0 ≤ mW.offset.getD k 0 ∧ mW.offset.getD k 0 < 2 * Real.pi) ∧
      (∀ x, (applyState mW x).2.omega = mW.omega ∧
        (applyState mW x).2.offset = mW.offset)) :=
  ⟨construct_mW, construct_sampling 1 2 1 zeroSource mW construct_mW⟩

/-! ## The MNIST input pipeline of the kernel-methods notebook -/

/-- A dataset split as loaded by `load_mnist`: one array of images and one of
labels.  MNIST labels are loaded as unsigned integers;
`astype(np.int32)` casts them to 32-bit integers. -/
structure DatasetSplit where
  images : List (List ℝ)
  labels : List ℤ

/-- The MNIST dataset: train, validation and test splits. -/
structure MnistData where
  train : DatasetSplit
  validation : DatasetSplit
  test : DatasetSplit

/-- The two's-complement cast of an integer to 32 bits (`astype(np.int32)`). -/
def toInt32 (z : ℤ) : ℤ :=
  (z + 2 ^ 31) % 2 ^ 32 - 2 ^ 31

/-- Modelled from the spec: `tf.train.shuffle_batch` is framework code, the
external input-pipeline collaborator the spec assumes delivers complete
fixed-shape batches.  It is modelled as drawing `batch_size` samples at
oracle-chosen positions; the oracle `sel` stands for the shuffle queue's
randomness, and `capacity` / `min_after_dequeue` only tune the queue. -/
def shuffle_batch (images : List (List ℝ)) (labels : List ℤ)
    (batch_size _capacity _min_after_dequeue : ℕ) (sel : ℕ → ℕ) :
    List (List ℝ) × List ℤ :=
  (List.ofFn fun i : Fin batch_size =>
    images.getD (sel i % images.length) [],
   List.ofFn fun i : Fin batch_size =>
    labels.getD (sel i % labels.length) 0)

/-- `get_input_fn` from the notebook: returns an input function closing over
the dataset split and batch size.  The input function batches the split's
images together with the labels cast to 32-bit integers
(`dataset_split.labels.astype(np.int32)`) and returns the features map
`\x7b'images': images_batch\x7d` paired with the label batch.  The notebook's
default arguments are `capacity=10000` and `min_after_dequeue=3000`. -/
def get_input_fn (dataset_split : DatasetSplit) (batch_size : ℕ)
    (capacity : ℕ) (min_after_dequeue : ℕ) :
    (ℕ → ℕ) → List (String × List (List ℝ)) × List ℤ :=
  fun sel =>
    let batches := shuffle_batch dataset_split.images
      (dataset_split.labels.map toInt32) batch_size capacity
      min_after_dequeue sel
    ([("images", batches.1)], batches.2)

/-- `train_input_fn = get_input_fn(data.train, batch_size=256)`. -/
def train_input_fn (data : MnistData) :
    (ℕ → ℕ) → List (String × List (List ℝ)) × List ℤ :=
  get_input_fn data.train 256 10000 3000

/-- `eval_input_fn = get_input_fn(data.validation, batch_size=5000)`. -/
def eval_input_fn (data : MnistData) :
    (ℕ → ℕ) → List (String × List (List ℝ)) × List ℤ :=
  get_input_fn data.validation 5000 10000 3000

theorem get_input_fn_label_length (split : DatasetSplit)
    (batch_size capacity min_after_dequeue : ℕ) (sel : ℕ → ℕ) :
    ((get_input_fn split batch_size capacity min_after_dequeue sel).2).length
      = batch_size := by
  simp [get_input_fn, shuffle_batch]

theorem getD_map_toInt32 (l : List ℤ) (n : ℕ) :
    (l.map toInt32).getD n 0 = toInt32 (l.getD n 0) := by
  rw [List.getD_eq_getElem?_getD, List.getD_eq_getElem?_getD,
      List.getElem?_map]
  cases l[n]? with
  | none => norm_num [toInt32]
  | some a => rfl

/-- C9: for every dataset split and batch size, the input function returned by
`get_input_fn` yields a features mapping whose only key is `"images"` paired
with a label batch whose labels have been cast to 32-bit integers, and the
batch size is the one fixed at closure creation: 256 for the training input
function and 5000 for the evaluation input function. -/
theorem get_input_fn_contract (data : MnistData) (split : DatasetSplit)
    (batch_size capacity min_after_dequeue : ℕ) (sel : ℕ → ℕ) :
    ((get_input_fn split batch_size capacity min_after_dequeue sel).1.map
        Prod.fst = ["images"]) ∧
    (∃ raw : List ℤ,
      (get_input_fn split batch_size capacity min_after_dequeue sel).2 =
        raw.map toInt32 ∧ raw.length = batch_size) ∧
    ((get_input_fn split batch_size capacity min_after_dequeue sel).2.length =
      batch_size) ∧
    (train_input_fn data sel).2.length = 256 ∧
    (eval_input_fn data sel).2.length = 5000 := by
  refine ⟨rfl, ?_,
    get_input_fn_label_length split batch_size capacity min_after_dequeue sel,
    get_input_fn_label_length data.train 256 10000 3000 sel,
    get_input_fn_label_length data.validation 5000 10000 3000 sel⟩
  refine ⟨List.ofFn fun i : Fin batch_size =>
    split.labels.getD (sel i % split.labels.length) 0, ?_, by simp⟩
  show (List.ofFn fun i : Fin batch_size =>
      (split.labels.map toInt32).getD
        (sel i % (split.labels.map toInt32).length) 0) = _
  rw [List.map_ofFn]
  refine congrArg List.ofFn (funext fun i => ?_)
  show (split.labels.map toInt32).getD
      (sel i % (split.labels.map toInt32).length) 0 =
    toInt32 (split.labels.getD (sel i % split.labels.length) 0)
  rw [List.length_map, getD_map_toInt32]

/-! ## The Census feature columns of the wide-and-deep notebook -/

/-- A categorical column backed by an explicit vocabulary list
(`tf.feature_column.categorical_column_with_vocabulary_list`). -/
structure VocabColumn where
  key : String
  vocabulary_list : List String

def categorical_column_with_vocabulary_list (key : String)
    (vocabulary_list : List String) : VocabColumn :=
  { key := key, vocabulary_list := vocabulary_list }

/-- A categorical column backed by hashing
(`tf.feature_column.categorical_column_with_hash_bucket`). -/
structure HashColumn where
  key : String
  hash_bucket_size : ℕ

def categorical_column_with_hash_bucket (key : String)
    (hash_bucket_size : ℕ) : HashColumn :=
  { key := key, hash_bucket_size := hash_bucket_size }

/-- A crossed column (`tf.feature_column.crossed_column`); its keys name raw
features or already-transformed columns (`age_buckets`). -/
structure CrossedColumn where
  keys : List String
  hash_bucket_size : ℕ

def education : VocabColumn :=
  categorical_column_with_vocabulary_list "education"
    ["Bachelors", "HS-grad", "11th", "Masters", "9th", "Some-college",
     "Assoc-acdm", "Assoc-voc", "7th-8th", "Doctorate", "Prof-school",
     "5th-6th", "10th", "1st-4th", "Preschool", "12th"]

def marital_status : VocabColumn :=
  categorical_column_with_vocabulary_list "marital_status"
    ["Married-civ-spouse", "Divorced", "Married-spouse-absent",
     "Never-married", "Separated", "Married-AF-spouse", "Widowed"]

def relationship : VocabColumn :=
  categorical_column_with_vocabulary_list "relationship"
    ["Husband", "Not-in-family", "Wife", "Own-child", "Unmarried",
     "Other-relative"]

def workclass : VocabColumn :=
  categorical_column_with_vocabulary_list "workclass"
    ["Self-emp-not-inc", "Private", "State-gov", "Federal-gov",
     "Local-gov", "?", "Self-emp-inc", "Without-pay", "Never-worked"]

def occupation : HashColumn :=
  categorical_column_with_hash_bucket "occupation" 1000

def crossed_columns : List CrossedColumn :=
  [{ keys := ["education", "occupation"], hash_bucket_size := 1000 },
   { keys := ["age_buckets", "education", "occupation"],
     hash_bucket_size := 1000 }]

/-- Modelled from the spec: the framework's vocabulary lookup maps a value to
its index in the vocabulary list and rejects (`none`) values outside it; the
lookup code itself is TensorFlow framework code not in this repository. -/
def vocabLookup (vocab : List String) (s : String) : Option ℕ :=
  match vocab with
  | [] => none
  | v :: rest => if v = s then some 0 else (vocabLookup rest s).map (· + 1)

/-- Modelled from the spec: the framework's hash-bucket lookup hashes the raw
string value with a hash function `h` and reduces it modulo the column's
bucket count; it never rejects a value. -/
def hashLookup (h : String → ℕ) (col : HashColumn) (s : String) : ℕ :=
  h s % col.hash_bucket_size

/-- Modelled from the spec: a feature cross hashes the combination of the
crossed values modulo the crossed column's bucket count; it never rejects a
combination. -/
def crossLookup (h : String → ℕ) (col : CrossedColumn)
    (vals : List String) : ℕ :=
  h (String.intercalate "_X_" vals) % col.hash_bucket_size

theorem isSome_map_succ (o : Option ℕ) :
    (o.map (· + 1)).isSome = o.isSome := by
  cases o <;> rfl

theorem vocabLookup_isSome_iff (vocab : List String) (s : String) :
    (vocabLookup vocab s).isSome ↔ s ∈ vocab := by
  induction vocab with
  | nil => simp [vocabLookup]
  | cons v rest ih =>
    by_cases h : v = s
    · subst h
      simp [vocabLookup]
    · simp only [vocabLookup, if_neg h, isSome_map_succ, List.mem_cons, ih]
      constructor
      · exact Or.inr
      · rintro (rfl | hs)
        · exact absurd rfl h
        · exact hs

/-- C10: the occupation column and both crossed columns use a hash bucket size
of exactly 1000, every occupation value and every feature cross is mapped to a
bucket identifier in `[0, 1000)` and never rejected, and the vocabulary-list
columns (education, marital_status, relationship, workclass) recognize exactly
their explicitly enumerated values. -/
theorem hash_bucket_columns (h : String → ℕ) :
    occupation.hash_bucket_size = 1000 ∧
    (∀ c ∈ crossed_columns, c.hash_bucket_size = 1000) ∧
    (∀ s, hashLookup h occupation s < 1000) ∧
    (∀ c ∈ crossed_columns, ∀ vals, crossLookup h c vals < 1000) ∧
    (∀ col ∈ [education, marital_status, relationship, workclass], ∀ s,
      (vocabLookup col.vocabulary_list s).isSome ↔
        s ∈ col.vocabulary_list) := by
  refine ⟨rfl, ?_, ?_, ?_, ?_⟩
  · intro c hc
    fin_cases hc <;> rfl
  · intro s
    exact Nat.mod_lt _ (by decide)
  · intro c hc vals
    fin_cases hc <;> exact Nat.mod_lt _ (by decide)
  · intro col _ s
    exact vocabLookup_isSome_iff _ _

theorem hash_bucket_columns_witness :
    hashLookup (fun _ => 7) occupation "engineer" < 1000 ∧
      (vocabLookup education.vocabulary_list "Bachelors").isSome :=
  ⟨(hash_bucket_columns (fun _ => 7)).2.2.1 "engineer",
   ((hash_bucket_columns (fun _ => 7)).2.2.2.2 education (by simp)
      "Bachelors").mpr
    (by simp [education, categorical_column_with_vocabulary_list])⟩

end TFML
